import Mathlib

/-!
Verification of the `azure-storage-lister` function app (`src/function_app.py`)
against its natural-language specification.

The embedding below translates the Python source directly:
* the sliding-window rate limiter `is_rate_limited` (module globals
  `RATE_LIMIT`, `WINDOW_SECONDS`, `request_history`) becomes a pure function
  on an explicit timestamp list, with `time.time()` values modelled as `ℚ`;
* the `style_images` handler's pipeline (filtering, download, backup, the
  per-style loop) becomes explicit state passing over an association-list
  blob store; external effects (environment variables, blob download errors,
  backup upload errors, the generation-service HTTP call) are an explicit
  environment record `Env`;
* Python string operations (`str.replace('//','/')`, `os.path.basename`,
  `str.lower`, `str.endswith`, slicing `[:50]`) are re-implemented over
  `List Char` with structural recursion so that everything evaluates.
-/

/-- `RATE_LIMIT = 100` from the source. -/
def RATE_LIMIT : Nat := 100

/-- `WINDOW_SECONDS = 60` from the source (as a rational, timestamps being
`time.time()` floats modelled as `ℚ`). -/
def WINDOW_SECONDS : ℚ := 60

/-- The purge loop of `is_rate_limited`:
`while request_history and request_history[0] < now - WINDOW_SECONDS: popleft()`.
Popping from the front while the head satisfies the test is exactly
`List.dropWhile`. -/
def purge (now : ℚ) (hist : List ℚ) : List ℚ :=
  hist.dropWhile (fun t => decide (t < now - WINDOW_SECONDS))

/-- `is_rate_limited` from the source, with the mutable deque made explicit:
returns the Python boolean result together with the updated history. -/
def is_rate_limited (now : ℚ) (hist : List ℚ) : Bool × List ℚ :=
  let h := purge now hist
  if RATE_LIMIT ≤ h.length then (true, h) else (false, h ++ [now])

/-- `n` successive calls of `is_rate_limited`, all at instant `now`,
starting from history `hist`; returns the final history. -/
def repeatCalls : Nat → ℚ → List ℚ → List ℚ
  | 0, _, hist => hist
  | Nat.succ k, now, hist => (is_rate_limited now (repeatCalls k now hist)).2

/-- Python's `s.replace('//', '/')` on the character list: a single
left-to-right pass replacing non-overlapping occurrences. -/
def replaceSlashes : List Char → List Char
  | '/' :: '/' :: rest => '/' :: replaceSlashes rest
  | c :: rest => c :: replaceSlashes rest
  | [] => []

/-- `os.path.basename`: everything after the last `/`. -/
def basename (s : String) : String :=
  String.mk ((s.data.reverse.takeWhile (fun c => c ≠ '/')).reverse)

/-- `str.endswith` via list suffix test. -/
def strEndsWith (s suffix : String) : Bool :=
  suffix.data.isSuffixOf s.data

/-- `str.lower` (sufficient for ASCII filenames, as in the source's
extension check). -/
def strToLower (s : String) : String :=
  String.mk (s.data.map Char.toLower)

/-- Python slicing `s[:n]`. -/
def strTake (s : String) (n : Nat) : String :=
  String.mk (s.data.take n)

/-- `f"{output_folder}/{style_name}/{file_name}".replace('//', '/')` — the
target-path computation of `style_images` (also used for the
`original` backup segment). -/
def target_name (output_folder style_name file_name : String) : String :=
  String.mk (replaceSlashes (output_folder ++ "/" ++ style_name ++ "/" ++ file_name).data)

-- Scratch checks for the definitions on the spec's own examples.
example : target_name "" "watercolor" "a.png" = "/watercolor/a.png" := by decide
example : target_name "output" "watercolor" "a.png" = "output/watercolor/a.png" := by decide
example : basename "source/photo.JPG" = "photo.JPG" := by decide

/-- Dropping while the test holds empties a constant list whose element
passes the test. -/
theorem dropWhile_replicate_pos (p : α → Bool) (a : α) (h : p a = true) :
    ∀ n, List.dropWhile p (List.replicate n a) = []
  | 0 => by simp
  | Nat.succ m => by
    rw [List.replicate_succ, List.dropWhile_cons, if_pos h]
    exact dropWhile_replicate_pos p a h m

/-- Dropping while the test holds keeps a constant list whose element fails
the test. -/
theorem dropWhile_replicate_neg (p : α → Bool) (a : α) (h : p a = false)
    (n : Nat) : List.dropWhile p (List.replicate n a) = List.replicate n a := by
  cases n with
  | zero => simp
  | succ m => rw [List.replicate_succ, List.dropWhile_cons, h]; simp

/-- C1 counterexample: a timestamp exactly at the window boundary
(`t = now - window`, here `t = 0`, `now = 60`, window `60`) is *kept* by the
purge, not treated as expired: the purge condition in the source is the
strict `request_history[0] < now - WINDOW_SECONDS`. -/
theorem C1_counterexample :
    purge 60 [(0 : ℚ)] = [(0 : ℚ)] ∧ (0 : ℚ) ≤ 60 - WINDOW_SECONDS := by
  have hne : ¬ ((0 : ℚ) < 60 - WINDOW_SECONDS) := by norm_num [WINDOW_SECONDS]
  constructor
  · simp [purge, List.dropWhile_cons, hne]
  · norm_num [WINDOW_SECONDS]

/-- C1 (amended): the admission check purges exactly those recorded
timestamps `t` with `t < now - window` (strictly older than the window);
a timestamp exactly equal to `now - window` is retained, so the retained
window is the closed interval `[now - window, now]` on a sorted history. -/
theorem C1_theorem (now : ℚ) (hist : List ℚ) (hs : List.Sorted (· ≤ ·) hist)
    (t : ℚ) : t ∈ purge now hist ↔ t ∈ hist ∧ now - WINDOW_SECONDS ≤ t := by
  induction hist with
  | nil => simp [purge]
  | cons a tl ih =>
    rw [List.sorted_cons] at hs
    obtain ⟨ha, htl⟩ := hs
    by_cases hc : a < now - WINDOW_SECONDS
    · rw [show purge now (a :: tl) = purge now tl by
        simp [purge, List.dropWhile_cons, hc]]
      rw [ih htl]
      constructor
      · rintro ⟨h1, h2⟩
        exact ⟨List.mem_cons_of_mem _ h1, h2⟩
      · rintro ⟨h1, h2⟩
        rcases List.mem_cons.mp h1 with h1 | h1
        · exfalso; rw [h1] at h2; linarith
        · exact ⟨h1, h2⟩
    · rw [show purge now (a :: tl) = a :: tl by
        simp [purge, List.dropWhile_cons, hc]]
      constructor
      · intro hmem
        refine ⟨hmem, ?_⟩
        rcases List.mem_cons.mp hmem with h1 | h1
        · rw [h1]; linarith [not_lt.mp hc]
        · exact le_trans (not_lt.mp hc) (ha t h1)
      · exact fun h => h.1

/-- C1 witness: concrete instance of the amended purge characterization at
`now = 61`, sorted history `[0, 1]`, `t = 1`. -/
theorem C1_witness :
    (1 : ℚ) ∈ purge 61 [(0 : ℚ), 1] ↔
      (1 : ℚ) ∈ [(0 : ℚ), 1] ∧ 61 - WINDOW_SECONDS ≤ 1 :=
  C1_theorem 61 [(0 : ℚ), 1] (by norm_num [List.sorted_cons]) 1

/-- C2 counterexample: joining `output_folder = ""`, style `watercolor`,
filename `a.png` does *not* yield `watercolor/a.png`: the source's single
`replace('//', '/')` pass leaves the leading separator produced by the
empty folder segment. -/
theorem C2_counterexample :
    target_name "" "watercolor" "a.png" ≠ "watercolor/a.png" := by decide

/-- C2 (amended): the target path is the separator-join of the three
segments followed by one non-overlapping `//` → `/` replacement pass; with
an empty `output_folder` this yields `/watercolor/a.png` (leading separator
retained), while a normal folder `output` and a singly trailing-separated
folder `output/` both yield `output/watercolor/a.png`. -/
theorem C2_theorem :
    target_name "" "watercolor" "a.png" = "/watercolor/a.png" ∧
    target_name "output" "watercolor" "a.png" = "output/watercolor/a.png" ∧
    target_name "output/" "watercolor" "a.png" = "output/watercolor/a.png" := by
  refine ⟨by decide, by decide, by decide⟩

/-- Helper for C4: from an empty history, `k ≤ 100` immediate calls at
instant `0` leave a history of `k` copies of the timestamp `0`. -/
theorem repeatCalls_eq_replicate (k : Nat) (hk : k ≤ RATE_LIMIT) :
    repeatCalls k 0 [] = List.replicate k (0 : ℚ) := by
  induction k with
  | zero => simp [repeatCalls]
  | succ n ih =>
    have hn : n ≤ RATE_LIMIT := Nat.le_of_succ_le hk
    have hlt : n < RATE_LIMIT := Nat.lt_of_succ_le hk
    rw [repeatCalls, ih hn]
    have hne : (fun t => decide (t < 0 - WINDOW_SECONDS)) (0 : ℚ) = false := by
      norm_num [WINDOW_SECONDS]
    have hpurge : purge 0 (List.replicate n (0 : ℚ)) = List.replicate n (0 : ℚ) := by
      unfold purge
      exact dropWhile_replicate_neg (fun t => decide (t < 0 - WINDOW_SECONDS)) (0 : ℚ) hne n
    simp only [is_rate_limited, purge] at hpurge ⊢
    rw [hpurge, List.length_replicate, if_neg (by omega)]
    simp [List.replicate_succ']

/-- C4: from an empty window with `limit = 100`, `window = 60`: each of the
first 100 immediate calls is admitted; the 101st call in the same second is
rejected and leaves the recorded history unchanged; after 61 seconds with no
further calls the next call is admitted and the history then holds exactly
that one timestamp. -/
theorem C4_theorem :
    (∀ k, k < RATE_LIMIT → (is_rate_limited 0 (repeatCalls k 0 [])).1 = false) ∧
    repeatCalls RATE_LIMIT 0 [] = List.replicate RATE_LIMIT (0 : ℚ) ∧
    (is_rate_limited 0 (List.replicate RATE_LIMIT (0 : ℚ))).1 = true ∧
    (is_rate_limited 0 (List.replicate RATE_LIMIT (0 : ℚ))).2 =
      List.replicate RATE_LIMIT (0 : ℚ) ∧
    (is_rate_limited 61 (List.replicate RATE_LIMIT (0 : ℚ))).1 = false ∧
    (is_rate_limited 61 (List.replicate RATE_LIMIT (0 : ℚ))).2 = [(61 : ℚ)] := by
  have hne : (fun t => decide (t < 0 - WINDOW_SECONDS)) (0 : ℚ) = false := by
    norm_num [WINDOW_SECONDS]
  have hpos : (fun t => decide (t < 61 - WINDOW_SECONDS)) (0 : ℚ) = true := by
    norm_num [WINDOW_SECONDS]
  have hpurge0 : ∀ n : Nat, purge 0 (List.replicate n (0 : ℚ)) = List.replicate n (0 : ℚ) := by
    intro n
    unfold purge
    exact dropWhile_replicate_neg (fun t => decide (t < 0 - WINDOW_SECONDS)) (0 : ℚ) hne n
  have hpurge61 : purge 61 (List.replicate RATE_LIMIT (0 : ℚ)) = [] := by
    unfold purge
    exact dropWhile_replicate_pos (fun t => decide (t < 61 - WINDOW_SECONDS)) (0 : ℚ) hpos RATE_LIMIT
  refine ⟨?_, repeatCalls_eq_replicate RATE_LIMIT le_rfl, ?_, ?_, ?_, ?_⟩
  · intro k hk
    rw [repeatCalls_eq_replicate k (Nat.le_of_lt hk)]
    simp only [is_rate_limited, hpurge0 k, List.length_replicate]
    rw [if_neg (by omega)]
  · simp only [is_rate_limited, hpurge0 RATE_LIMIT, List.length_replicate]
    rw [if_pos le_rfl]
  · simp only [is_rate_limited, hpurge0 RATE_LIMIT, List.length_replicate]
    rw [if_pos le_rfl]
  · simp only [is_rate_limited, hpurge61, List.length_nil]
    rw [if_neg (by simp [RATE_LIMIT])]
  · simp only [is_rate_limited, hpurge61, List.length_nil]
    rw [if_neg (by simp [RATE_LIMIT])]
    simp

/-- C4 witness: the 43rd immediate call (after 42 admitted ones at instant 0)
is still admitted. -/
theorem C4_witness : (is_rate_limited 0 (repeatCalls 42 0 [])).1 = false :=
  C4_theorem.1 42 (by norm_num [RATE_LIMIT])

/-- One entry of `PREDEFINED_STYLES`. -/
structure Style where
  name : String
  prompt_text : String
deriving DecidableEq

/-- `PREDEFINED_STYLES` from the source, in order. -/
def PREDEFINED_STYLES : List Style := [
  ⟨"geometric_3d", "Turn this into geometric 3D abstract art, low poly, vibrant colors"⟩,
  ⟨"watercolor", "Transform into a beautiful watercolor painting"⟩,
  ⟨"cyberpunk", "Cyberpunk 2077 style, neon lights, futuristic city, high detail"⟩,
  ⟨"anime", "Anime style, Studio Ghibli inspired, vibrant, detailed"⟩]

/-- The blob container contents: an association list from blob path to blob
bytes (most recent upload first, as `List.lookup` finds the first match). -/
abbrev Store : Type := List (String × String)

/-- `blob_client.exists()`. -/
def blobExists (st : Store) (p : String) : Bool :=
  (List.lookup p st).isSome

/-- `container_client.upload_blob(name=p, data=d, overwrite=True)`. -/
def uploadBlob (st : Store) (p d : String) : Store :=
  (p, d) :: st

/-- The `results` dict of `style_images`, plus an instrumentation field
`api_calls` recording each invocation of the generation service
(`requests.post`) with its file name, image bytes and prompt. -/
structure Results where
  processed : List String
  failed : List (String × String)
  skipped : List String
  api_calls : List (String × String × String)
deriving DecidableEq

/-- The freshly initialised `results` lists. -/
def Results.empty : Results := ⟨[], [], [], []⟩

/-- Outcome of one `requests.post` to the generation service: HTTP 200 with
the generated bytes, a non-200 status with a response body, or a raised
transport exception with its `str(api_err)` message. -/
inductive ApiResult where
  | success (content : String)
  | httpError (status_code : Nat) (body : String)
  | transportError (msg : String)
deriving DecidableEq

/-- Python truthiness of an optional environment string: `None` and `""`
are falsy. -/
def pyFalsy : Option String → Bool
  | none => true
  | some s => s.data.isEmpty

/-- The external world of one `style_images` run: the AI configuration
(`AZURE_API_KEY`, `AZURE_ENDPOINT_URL`), whether downloading / backing up a
given source blob raises (and with what message), and the generation
service's response for a given (file name, image bytes, prompt). -/
structure Env where
  api_key : Option String
  endpoint_url : Option String
  downloadErr : String → Option String
  backupErr : String → Option String
  api : String → String → String → ApiResult

/-- The extension allow-list of the source:
`['.jpg', '.jpeg', '.png']`. -/
def ALLOWED_EXTS : List String := [".jpg", ".jpeg", ".png"]

/-- `any(file_name.lower().endswith(ext) for ext in ['.jpg', '.jpeg', '.png'])`. -/
def allowedExt (file_name : String) : Bool :=
  ALLOWED_EXTS.any (fun ext => strEndsWith (strToLower file_name) ext)

/-- The body of `for style in PREDEFINED_STYLES`: skip if the target already
exists, report missing AI configuration, or call the generation service and
record success / non-200 / transport failure. -/
def styleStep (env : Env) (output_folder file_name image_data : String)
    (acc : Store × Results) (style : Style) : Store × Results :=
  let st := acc.1
  let r := acc.2
  let target := target_name output_folder style.name file_name
  if blobExists st target then
    (st, { r with skipped := r.skipped ++ [target] })
  else if pyFalsy env.api_key || pyFalsy env.endpoint_url then
    (st, { r with failed := r.failed ++ [(target, "API Config Missing")] })
  else
    let r1 := { r with api_calls := r.api_calls ++ [(file_name, image_data, style.prompt_text)] }
    match env.api file_name image_data style.prompt_text with
    | ApiResult.success content =>
        (uploadBlob st target content, { r1 with processed := r1.processed ++ [target] })
    | ApiResult.httpError code body =>
        (st, { r1 with failed :=
          r1.failed ++ [(target, "API " ++ toString code ++ ": " ++ strTake body 50)] })
    | ApiResult.transportError msg =>
        (st, { r1 with failed := r1.failed ++ [(target, msg)] })

/-- The style loop `for style in styles` as a fold of `styleStep`. -/
def styleFold (env : Env) (output_folder file_name image_data : String)
    (acc : Store × Results) (styles : List Style) : Store × Results :=
  styles.foldl (styleStep env output_folder file_name image_data) acc

/-- The body of `for blob in blobs`: the directory-marker and extension
filters, the download, the unconditional backup of the original, and the
style loop; a download or backup exception yields one `failed` entry keyed
by the source path and abandons the object. -/
def processBlob (env : Env) (output_folder : String)
    (acc : Store × Results) (blob : String × String) : Store × Results :=
  if strEndsWith blob.1 "/" then acc
  else if allowedExt (basename blob.1) then
    match env.downloadErr blob.1 with
    | some msg => (acc.1, { acc.2 with failed := acc.2.failed ++ [(blob.1, msg)] })
    | none =>
      match env.backupErr blob.1 with
      | some msg => (acc.1, { acc.2 with failed := acc.2.failed ++ [(blob.1, msg)] })
      | none =>
        let original := target_name output_folder "original" (basename blob.1)
        styleFold env output_folder (basename blob.1) blob.2
          (uploadBlob acc.1 original blob.2, acc.2) PREDEFINED_STYLES
  else acc

/-- The source iteration over all listed blobs, from an arbitrary
accumulator. -/
def runAux (env : Env) (output_folder : String) (acc : Store × Results)
    (blobs : List (String × String)) : Store × Results :=
  blobs.foldl (processBlob env output_folder) acc

/-- The whole processing loop of `style_images` over the listed source
blobs (`blobs` pairs each listed path with its bytes), against container
contents `store`, with fresh `results`. -/
def style_images_run (env : Env) (output_folder : String)
    (blobs : List (String × String)) (store : Store) : Store × Results :=
  runAux env output_folder (store, Results.empty) blobs

/-- Storage-side configuration of the handler: the two connection-string
environment variables and whether the named container exists. -/
structure Config where
  target_cs : Option String
  webjobs_cs : Option String
  containerExists : Bool

/-- `TARGET_STORAGE_CONNECTION_STRING` preferred over `AzureWebJobsStorage`
(Python truthiness). -/
def resolveConnStr (c : Config) : Option String :=
  if pyFalsy c.target_cs then c.webjobs_cs else c.target_cs

/-- The handler-level outcome of `style_images`: 429, 500 (storage
configuration), 404 (container missing), or 200 with the results body. -/
inductive Response where
  | rateLimited
  | storageConfigError
  | containerNotFound
  | ok (r : Results)
deriving DecidableEq

/-- The `style_images` HTTP handler: rate-limit check first, then the
connection-string check (500), the container-existence check (404), and
otherwise the processing loop with a 200 response. Also returns the updated
rate-limiter history. -/
def style_images (c : Config) (env : Env) (output_folder : String)
    (blobs : List (String × String)) (store : Store)
    (now : ℚ) (hist : List ℚ) : Response × List ℚ :=
  let lim := is_rate_limited now hist
  if lim.1 then (Response.rateLimited, lim.2)
  else if pyFalsy (resolveConnStr c) then (Response.storageConfigError, lim.2)
  else if c.containerExists then
    (Response.ok (style_images_run env output_folder blobs store).2, lim.2)
  else (Response.containerNotFound, lim.2)

/-- A sample environment with no AI configuration and no storage faults. -/
def envNoKey : Env :=
  ⟨none, none, fun _ => none, fun _ => none, fun _ _ _ => ApiResult.transportError "net down"⟩

/-- A sample fully configured environment whose generation call always
succeeds. -/
def envOk : Env :=
  ⟨some "k", some "u", fun _ => none, fun _ => none, fun _ _ _ => ApiResult.success "styled"⟩

-- Scratch checks of the pipeline on the spec's examples.
example :
    (processBlob envNoKey "output" ([], Results.empty) ("source/readme.txt", "D")) =
      ([], Results.empty) := by decide
example :
    (processBlob envNoKey "output" ([], Results.empty) ("source/sub/", "D")) =
      ([], Results.empty) := by decide
example :
    (processBlob envNoKey "output" ([], Results.empty) ("source/photo.JPG", "D")).1 =
      [("output/original/photo.JPG", "D")] := by decide
example :
    (style_images_run envOk "output" [("source/a.png", "D")] []).2.processed =
      ["output/geometric_3d/a.png", "output/watercolor/a.png",
       "output/cyberpunk/a.png", "output/anime/a.png"] := by decide

/-- A fully configured environment whose generation call always fails with
HTTP 503. -/
def envHttp : Env :=
  ⟨some "k", some "u", fun _ => none, fun _ => none,
    fun _ _ _ => ApiResult.httpError 503 "Service Unavailable"⟩

/-- A fully configured environment in which downloading any source blob
raises `ConnectionError`. -/
def envDl : Env :=
  ⟨some "k", some "u", fun _ => some "ConnectionError", fun _ => none,
    fun _ _ _ => ApiResult.success "styled"⟩

/-- A fully configured environment in which the backup upload of any source
blob raises `UploadError`. -/
def envBk : Env :=
  ⟨some "k", some "u", fun _ => none, fun _ => some "UploadError",
    fun _ _ _ => ApiResult.success "styled"⟩

/-- C3: every (source object, style) pair whose style-loop iteration runs
contributes exactly one entry to exactly one of `processed`, `skipped`,
`failed`; and an object filtered out before the style loop (directory
marker, or extension outside the allow-list) changes nothing at all. -/
theorem C3_theorem :
    (∀ (env : Env) (ofold fn data : String) (st : Store) (r : Results) (s : Style),
      (∃ t, (styleStep env ofold fn data (st, r) s).2.processed = r.processed ++ [t] ∧
            (styleStep env ofold fn data (st, r) s).2.skipped = r.skipped ∧
            (styleStep env ofold fn data (st, r) s).2.failed = r.failed) ∨
      (∃ t, (styleStep env ofold fn data (st, r) s).2.skipped = r.skipped ++ [t] ∧
            (styleStep env ofold fn data (st, r) s).2.processed = r.processed ∧
            (styleStep env ofold fn data (st, r) s).2.failed = r.failed) ∨
      (∃ e, (styleStep env ofold fn data (st, r) s).2.failed = r.failed ++ [e] ∧
            (styleStep env ofold fn data (st, r) s).2.processed = r.processed ∧
            (styleStep env ofold fn data (st, r) s).2.skipped = r.skipped)) ∧
    (∀ (env : Env) (ofold : String) (acc : Store × Results) (name data : String),
      strEndsWith name "/" = true ∨ allowedExt (basename name) = false →
      processBlob env ofold acc (name, data) = acc) := by
  constructor
  · intro env ofold fn data st r s
    cases hex : blobExists st (target_name ofold s.name fn) with
    | true =>
      refine Or.inr (Or.inl ⟨target_name ofold s.name fn, ?_, ?_, ?_⟩) <;>
        simp [styleStep, hex]
    | false =>
      cases hcfg : (pyFalsy env.api_key || pyFalsy env.endpoint_url) with
      | true =>
        refine Or.inr (Or.inr
          ⟨(target_name ofold s.name fn, "API Config Missing"), ?_, ?_, ?_⟩) <;>
          simp [styleStep, hex, hcfg]
      | false =>
        cases hapi : env.api fn data s.prompt_text with
        | success content =>
          refine Or.inl ⟨target_name ofold s.name fn, ?_, ?_, ?_⟩ <;>
            simp [styleStep, hex, hcfg, hapi]
        | httpError code body =>
          refine Or.inr (Or.inr ⟨(target_name ofold s.name fn,
            "API " ++ toString code ++ ": " ++ strTake body 50), ?_, ?_, ?_⟩) <;>
            simp [styleStep, hex, hcfg, hapi]
        | transportError msg =>
          refine Or.inr (Or.inr ⟨(target_name ofold s.name fn, msg), ?_, ?_, ?_⟩) <;>
            simp [styleStep, hex, hcfg, hapi]
  · intro env ofold acc name data h
    rcases h with h | h
    · simp [processBlob, h]
    · cases hslash : strEndsWith name "/" with
      | true => simp [processBlob, hslash]
      | false => simp [processBlob, hslash, h]

/-- C3 witness: the directory marker `source/sub/` (filtered before the
style loop) leaves the state untouched. -/
theorem C3_witness :
    processBlob envNoKey "output" ([], Results.empty) ("source/sub/", "D") =
      ([], Results.empty) :=
  C3_theorem.2 envNoKey "output" ([], Results.empty) "source/sub/" "D"
    (Or.inl (by decide))

/-- C7: objects whose path ends with the separator (directory markers) and
objects whose extension is not in the case-insensitive allow-list
`{.jpg, .jpeg, .png}` are excluded (no state change); `source/readme.txt`
and `source/sub/` are excluded, while `source/photo.JPG` passes both
filters and is processed (its backup is written). -/
theorem C7_theorem :
    (∀ (env : Env) (ofold : String) (acc : Store × Results) (name data : String),
      strEndsWith name "/" = true → processBlob env ofold acc (name, data) = acc) ∧
    (∀ (env : Env) (ofold : String) (acc : Store × Results) (name data : String),
      allowedExt (basename name) = false → processBlob env ofold acc (name, data) = acc) ∧
    (strEndsWith "source/readme.txt" "/" = false ∧
      allowedExt (basename "source/readme.txt") = false) ∧
    strEndsWith "source/sub/" "/" = true ∧
    (strEndsWith "source/photo.JPG" "/" = false ∧
      allowedExt (basename "source/photo.JPG") = true) ∧
    (processBlob envNoKey "output" ([], Results.empty) ("source/photo.JPG", "D")).1 =
      [("output/original/photo.JPG", "D")] := by
  refine ⟨?_, ?_, by decide, by decide, by decide, by decide⟩
  · intro env ofold acc name data h
    simp [processBlob, h]
  · intro env ofold acc name data h
    cases hslash : strEndsWith name "/" with
    | true => simp [processBlob, hslash]
    | false => simp [processBlob, hslash, h]

/-- C7 witness: `source/readme.txt` (disallowed extension) is excluded from
processing. -/
theorem C7_witness :
    processBlob envOk "output" ([], Results.empty) ("source/readme.txt", "D") =
      ([], Results.empty) :=
  C7_theorem.2.1 envOk "output" ([], Results.empty) "source/readme.txt" "D"
    (by decide)

/-- C9: a non-success generation-service response turns into exactly one
`failed` entry pairing the target path with `"API {status}: {body[:50]}"`
(status code plus a 50-character-bounded prefix of the body), leaves the
store untouched, and the loop then continues with the next style. -/
theorem C9_theorem (env : Env) (ofold fn data : String) (st : Store)
    (r : Results) (s : Style) (code : Nat) (body : String)
    (hex : blobExists st (target_name ofold s.name fn) = false)
    (hk : pyFalsy env.api_key = false)
    (he : pyFalsy env.endpoint_url = false)
    (hapi : env.api fn data s.prompt_text = ApiResult.httpError code body) :
    styleStep env ofold fn data (st, r) s =
      (st, { r with
        api_calls := r.api_calls ++ [(fn, data, s.prompt_text)],
        failed := r.failed ++
          [(target_name ofold s.name fn,
            "API " ++ toString code ++ ": " ++ strTake body 50)] }) ∧
    (strTake body 50).data.length ≤ 50 ∧
    (∀ (rest : List Style) (acc : Store × Results),
      List.foldl (styleStep env ofold fn data) acc (s :: rest) =
        List.foldl (styleStep env ofold fn data) (styleStep env ofold fn data acc s) rest) := by
  refine ⟨?_, ?_, fun rest acc => rfl⟩
  · simp [styleStep, hex, hk, he, hapi]
  · simp only [strTake]
    simp [List.length_take]

/-- C9 witness: a concrete 503 response from the generation service at an
empty store yields exactly the diagnostic `failed` entry. -/
theorem C9_witness :
    styleStep envHttp "output" "a.png" "D" ([], Results.empty)
        ⟨"watercolor", "Transform into a beautiful watercolor painting"⟩ =
      ([], { Results.empty with
        api_calls := Results.empty.api_calls ++
          [("a.png", "D", "Transform into a beautiful watercolor painting")],
        failed := Results.empty.failed ++
          [(target_name "output" "watercolor" "a.png",
            "API " ++ toString 503 ++ ": " ++ strTake "Service Unavailable" 50)] }) :=
  (C9_theorem envHttp "output" "a.png" "D" [] Results.empty
    ⟨"watercolor", "Transform into a beautiful watercolor painting"⟩ 503
    "Service Unavailable" (by decide) (by decide) (by decide) rfl).1

/-- C10: for a source object that passes the filters, a download error, or a
successful download followed by a backup-upload error, yields exactly one
`failed` entry keyed by the source path, leaves the store and the other
result lists untouched (the style loop is never entered: no per-style
entries, no generator calls), and the run continues with the next listed
object. -/
theorem C10_theorem (env : Env) (ofold name data msg : String)
    (acc : Store × Results)
    (hslash : strEndsWith name "/" = false)
    (hext : allowedExt (basename name) = true)
    (herr : env.downloadErr name = some msg ∨
      (env.downloadErr name = none ∧ env.backupErr name = some msg)) :
    processBlob env ofold acc (name, data) =
      (acc.1, { acc.2 with failed := acc.2.failed ++ [(name, msg)] }) ∧
    (∀ (rest : List (String × String)) (acc' : Store × Results),
      List.foldl (processBlob env ofold) acc' ((name, data) :: rest) =
        List.foldl (processBlob env ofold) (processBlob env ofold acc' (name, data)) rest) := by
  refine ⟨?_, fun rest acc' => rfl⟩
  rcases herr with hdl | ⟨hdl, hbk⟩
  · simp [processBlob, hslash, hext, hdl]
  · simp [processBlob, hslash, hext, hdl, hbk]

/-- C10 witness: a concrete download failure of `source/a.png` yields the
single `failed` entry keyed by the source path and leaves the store
unchanged. -/
theorem C10_witness :
    processBlob envDl "output" ([], Results.empty) ("source/a.png", "D") =
      ([], { Results.empty with
        failed := Results.empty.failed ++ [("source/a.png", "ConnectionError")] }) :=
  (C10_theorem envDl "output" "source/a.png" "D" "ConnectionError"
    ([], Results.empty) (by decide) (by decide) (Or.inl rfl)).1

/-- `blob_client.exists()` after one more upload: the target matches the new
blob or was already present. -/
theorem blobExists_cons (st : Store) (q c p : String) :
    blobExists (uploadBlob st q c) p = ((p == q) || blobExists st p) := by
  cases h : p == q <;> simp [blobExists, uploadBlob, List.lookup, h]

/-- With the AI configuration missing (Python-falsy key or endpoint) and no
style target present, the style loop turns every style into exactly one
`"API Config Missing"` `failed` entry, in catalog order, and changes
nothing else. -/
theorem styleFold_config_missing (env : Env) (ofold fn data : String)
    (st : Store) (styles : List Style)
    (hkey : (pyFalsy env.api_key || pyFalsy env.endpoint_url) = true)
    (hex : ∀ s ∈ styles, blobExists st (target_name ofold s.name fn) = false) :
    ∀ r : Results, styleFold env ofold fn data (st, r) styles =
      (st, { r with failed := r.failed ++ styles.map (fun s => (target_name ofold s.name fn, "API Config Missing")) }) := by
  induction styles with
  | nil => intro r; simp [styleFold]
  | cons s rest ih =>
    intro r
    have hs : blobExists st (target_name ofold s.name fn) = false :=
      hex s (List.mem_cons_self s rest)
    have hrest : ∀ s ∈ rest, blobExists st (target_name ofold s.name fn) = false :=
      fun s hmem => hex s (List.mem_cons_of_mem _ hmem)
    have hstep : styleStep env ofold fn data (st, r) s =
        (st, { r with failed := r.failed ++ [(target_name ofold s.name fn, "API Config Missing")] }) := by
      simp [styleStep, hs, hkey]
    rw [show styleFold env ofold fn data (st, r) (s :: rest) =
        styleFold env ofold fn data (styleStep env ofold fn data (st, r) s) rest from rfl,
      hstep, ih hrest]
    simp

/-- C5: if the generation-service key or endpoint is unset (Python-falsy),
a run over one valid source image none of whose style targets exists yields
zero `processed`, zero `skipped`, and exactly one `failed` entry per catalog
style carrying the configuration-missing message (`"API Config Missing"`),
while the backup copy of the original is still written. -/
theorem C5_theorem (env : Env) (ofold name data : String) (store : Store)
    (hkey : (pyFalsy env.api_key || pyFalsy env.endpoint_url) = true)
    (hslash : strEndsWith name "/" = false)
    (hext : allowedExt (basename name) = true)
    (hdl : env.downloadErr name = none)
    (hbk : env.backupErr name = none)
    (hnex : ∀ s ∈ PREDEFINED_STYLES,
      blobExists store (target_name ofold s.name (basename name)) = false)
    (hne : ∀ s ∈ PREDEFINED_STYLES,
      target_name ofold s.name (basename name) ≠
        target_name ofold "original" (basename name)) :
    (style_images_run env ofold [(name, data)] store).2.processed = [] ∧
    (style_images_run env ofold [(name, data)] store).2.skipped = [] ∧
    (style_images_run env ofold [(name, data)] store).2.failed =
      PREDEFINED_STYLES.map
        (fun s => (target_name ofold s.name (basename name), "API Config Missing")) ∧
    List.lookup (target_name ofold "original" (basename name))
      (style_images_run env ofold [(name, data)] store).1 = some data := by
  have hrun : style_images_run env ofold [(name, data)] store =
      styleFold env ofold (basename name) data
        (uploadBlob store (target_name ofold "original" (basename name)) data,
          Results.empty) PREDEFINED_STYLES := by
    simp [style_images_run, runAux, processBlob, hslash, hext, hdl, hbk]
  have hex : ∀ s ∈ PREDEFINED_STYLES,
      blobExists (uploadBlob store (target_name ofold "original" (basename name)) data)
        (target_name ofold s.name (basename name)) = false := by
    intro s hs
    rw [blobExists_cons]
    have h1 : (target_name ofold s.name (basename name) ==
        target_name ofold "original" (basename name)) = false :=
      beq_eq_false_iff_ne.mpr (hne s hs)
    simp [h1, hnex s hs]
  rw [hrun, styleFold_config_missing env ofold (basename name) data _ PREDEFINED_STYLES hkey hex]
  refine ⟨by simp [Results.empty], by simp [Results.empty], by simp [Results.empty], ?_⟩
  simp [uploadBlob, List.lookup]

/-- C5 witness: with no AI configuration, one valid source image over an
empty container produces the four configuration-missing failures and the
backup. -/
theorem C5_witness :
    (style_images_run envNoKey "output" [("source/a.png", "D")] []).2.processed = [] ∧
    (style_images_run envNoKey "output" [("source/a.png", "D")] []).2.skipped = [] ∧
    (style_images_run envNoKey "output" [("source/a.png", "D")] []).2.failed =
      PREDEFINED_STYLES.map
        (fun s => (target_name "output" s.name (basename "source/a.png"),
          "API Config Missing")) ∧
    List.lookup (target_name "output" "original" (basename "source/a.png"))
      (style_images_run envNoKey "output" [("source/a.png", "D")] []).1 = some "D" :=
  C5_theorem envNoKey "output" "source/a.png" "D" [] (by decide) (by decide)
    (by decide) rfl rfl (by decide) (by decide)

/-- C8: a non-200 outcome of the `style_images` handler occurs exactly for
rate-limit rejection (429, decided first, independently of store, container
and AI environment), missing storage connection string (500), or missing
container (404); otherwise the handler returns 200 carrying the results of
the processing loop, whose per-file/per-style faults are `failed` entries,
never a top-level error. -/
theorem C8_theorem (c : Config) (env : Env) (ofold : String)
    (blobs : List (String × String)) (store : Store) (now : ℚ) (hist : List ℚ) :
    ((style_images c env ofold blobs store now hist).1 = Response.rateLimited ↔
      (is_rate_limited now hist).1 = true) ∧
    ((style_images c env ofold blobs store now hist).1 = Response.storageConfigError ↔
      ((is_rate_limited now hist).1 = false ∧ pyFalsy (resolveConnStr c) = true)) ∧
    ((style_images c env ofold blobs store now hist).1 = Response.containerNotFound ↔
      ((is_rate_limited now hist).1 = false ∧ pyFalsy (resolveConnStr c) = false ∧
        c.containerExists = false)) ∧
    (((is_rate_limited now hist).1 = false ∧ pyFalsy (resolveConnStr c) = false ∧
        c.containerExists = true) →
      (style_images c env ofold blobs store now hist).1 =
        Response.ok (style_images_run env ofold blobs store).2) ∧
    ((is_rate_limited now hist).1 = true →
      ∀ (c' : Config) (env' : Env) (blobs' : List (String × String)) (store' : Store),
        (style_images c' env' ofold blobs' store' now hist).1 = Response.rateLimited) := by
  cases hlim : (is_rate_limited now hist).1 with
  | true =>
    refine ⟨by simp [style_images, hlim], by simp [style_images, hlim],
      by simp [style_images, hlim], by simp [hlim], ?_⟩
    intro _ c' env' blobs' store'
    simp [style_images, hlim]
  | false =>
    cases hcs : pyFalsy (resolveConnStr c) with
    | true =>
      refine ⟨by simp [style_images, hlim, hcs], by simp [style_images, hlim, hcs],
        by simp [style_images, hlim, hcs], by simp [hcs], by simp [hlim]⟩
    | false =>
      cases hce : c.containerExists with
      | true =>
        refine ⟨by simp [style_images, hlim, hcs, hce],
          by simp [style_images, hlim, hcs, hce],
          by simp [style_images, hlim, hcs, hce],
          by intro _; simp [style_images, hlim, hcs, hce], by simp [hlim]⟩
      | false =>
        refine ⟨by simp [style_images, hlim, hcs, hce],
          by simp [style_images, hlim, hcs, hce],
          by simp [style_images, hlim, hcs, hce],
          by simp [hce], by simp [hlim]⟩

/-- C8 witness: with an admitted request, a set connection string and an
existing container, the handler returns 200 with the loop's results. -/
theorem C8_witness :
    (style_images ⟨some "cs", none, true⟩ envOk "output" [] [] 0 []).1 =
      Response.ok (style_images_run envOk "output" [] []).2 :=
  (C8_theorem ⟨some "cs", none, true⟩ envOk "output" [] [] 0 []).2.2.2.1
    ⟨by decide, by decide, rfl⟩

/-- Store growth: every blob present in `st` is still present in `st'`
(uploads never delete). -/
def storeLe (st st' : Store) : Prop :=
  ∀ p, blobExists st p = true → blobExists st' p = true

theorem storeLe_refl (st : Store) : storeLe st st := fun _ h => h

theorem storeLe_trans {a b c : Store} (h1 : storeLe a b) (h2 : storeLe b c) :
    storeLe a c := fun p h => h2 p (h1 p h)

theorem storeLe_upload (st : Store) (q c : String) :
    storeLe st (uploadBlob st q c) := by
  intro p h
  rw [blobExists_cons, h, Bool.or_true]

/-- Result growth: each of the three outcome lists of `r'` extends the
corresponding list of `r` by a (possibly empty) suffix. -/
def resultsLe (r r' : Results) : Prop :=
  (∃ l, r'.processed = r.processed ++ l) ∧
  (∃ l, r'.skipped = r.skipped ++ l) ∧
  (∃ l, r'.failed = r.failed ++ l)

theorem resultsLe_refl (r : Results) : resultsLe r r :=
  ⟨⟨[], by simp⟩, ⟨[], by simp⟩, ⟨[], by simp⟩⟩

theorem resultsLe_trans {a b c : Results} (h1 : resultsLe a b)
    (h2 : resultsLe b c) : resultsLe a c := by
  obtain ⟨⟨l1, e1⟩, ⟨l2, e2⟩, ⟨l3, e3⟩⟩ := h1
  obtain ⟨⟨m1, f1⟩, ⟨m2, f2⟩, ⟨m3, f3⟩⟩ := h2
  refine ⟨⟨l1 ++ m1, ?_⟩, ⟨l2 ++ m2, ?_⟩, ⟨l3 ++ m3, ?_⟩⟩ <;>
    simp [f1, e1, f2, e2, f3, e3]

theorem resultsLe_mem_skipped {r r' : Results} (h : resultsLe r r')
    {t : String} (ht : t ∈ r.skipped) : t ∈ r'.skipped := by
  obtain ⟨l, e⟩ := h.2.1
  rw [e]
  exact List.mem_append_left _ ht

/-- The store after one style step: unchanged, or one more upload. -/
theorem styleStep_store (env : Env) (ofold fn data : String)
    (acc : Store × Results) (s : Style) :
    (styleStep env ofold fn data acc s).1 = acc.1 ∨
    ∃ q c, (styleStep env ofold fn data acc s).1 = uploadBlob acc.1 q c := by
  cases hex : blobExists acc.1 (target_name ofold s.name fn) with
  | true => left; simp [styleStep, hex]
  | false =>
    cases hcfg : (pyFalsy env.api_key || pyFalsy env.endpoint_url) with
    | true => left; simp [styleStep, hex, hcfg]
    | false =>
      cases hapi : env.api fn data s.prompt_text with
      | success content =>
        right
        exact ⟨target_name ofold s.name fn, content, by simp [styleStep, hex, hcfg, hapi]⟩
      | httpError code body => left; simp [styleStep, hex, hcfg, hapi]
      | transportError msg => left; simp [styleStep, hex, hcfg, hapi]

theorem styleStep_storeLe (env : Env) (ofold fn data : String)
    (acc : Store × Results) (s : Style) :
    storeLe acc.1 (styleStep env ofold fn data acc s).1 := by
  rcases styleStep_store env ofold fn data acc s with h | ⟨q, c, h⟩
  · rw [h]; exact storeLe_refl _
  · rw [h]; exact storeLe_upload _ _ _

theorem styleStep_resultsLe (env : Env) (ofold fn data : String)
    (acc : Store × Results) (s : Style) :
    resultsLe acc.2 (styleStep env ofold fn data acc s).2 := by
  cases hex : blobExists acc.1 (target_name ofold s.name fn) with
  | true =>
    exact ⟨⟨[], by simp [styleStep, hex]⟩,
      ⟨[target_name ofold s.name fn], by simp [styleStep, hex]⟩,
      ⟨[], by simp [styleStep, hex]⟩⟩
  | false =>
    cases hcfg : (pyFalsy env.api_key || pyFalsy env.endpoint_url) with
    | true =>
      exact ⟨⟨[], by simp [styleStep, hex, hcfg]⟩,
        ⟨[], by simp [styleStep, hex, hcfg]⟩,
        ⟨[(target_name ofold s.name fn, "API Config Missing")],
          by simp [styleStep, hex, hcfg]⟩⟩
    | false =>
      cases hapi : env.api fn data s.prompt_text with
      | success content =>
        exact ⟨⟨[target_name ofold s.name fn], by simp [styleStep, hex, hcfg, hapi]⟩,
          ⟨[], by simp [styleStep, hex, hcfg, hapi]⟩,
          ⟨[], by simp [styleStep, hex, hcfg, hapi]⟩⟩
      | httpError code body =>
        exact ⟨⟨[], by simp [styleStep, hex, hcfg, hapi]⟩,
          ⟨[], by simp [styleStep, hex, hcfg, hapi]⟩,
          ⟨[(target_name ofold s.name fn,
              "API " ++ toString code ++ ": " ++ strTake body 50)],
            by simp [styleStep, hex, hcfg, hapi]⟩⟩
      | transportError msg =>
        exact ⟨⟨[], by simp [styleStep, hex, hcfg, hapi]⟩,
          ⟨[], by simp [styleStep, hex, hcfg, hapi]⟩,
          ⟨[(target_name ofold s.name fn, msg)], by simp [styleStep, hex, hcfg, hapi]⟩⟩

theorem styleFold_storeLe (env : Env) (ofold fn data : String) :
    ∀ (styles : List Style) (acc : Store × Results),
      storeLe acc.1 (styleFold env ofold fn data acc styles).1
  | [], acc => storeLe_refl _
  | s :: rest, acc =>
    storeLe_trans (styleStep_storeLe env ofold fn data acc s)
      (styleFold_storeLe env ofold fn data rest (styleStep env ofold fn data acc s))

theorem styleFold_resultsLe (env : Env) (ofold fn data : String) :
    ∀ (styles : List Style) (acc : Store × Results),
      resultsLe acc.2 (styleFold env ofold fn data acc styles).2
  | [], acc => resultsLe_refl _
  | s :: rest, acc =>
    resultsLe_trans (styleStep_resultsLe env ofold fn data acc s)
      (styleFold_resultsLe env ofold fn data rest (styleStep env ofold fn data acc s))

theorem processBlob_storeLe (env : Env) (ofold : String)
    (acc : Store × Results) (b : String × String) :
    storeLe acc.1 (processBlob env ofold acc b).1 := by
  cases hslash : strEndsWith b.1 "/" with
  | true => simp [processBlob, hslash]; exact storeLe_refl _
  | false =>
    cases hext : allowedExt (basename b.1) with
    | false => simp [processBlob, hslash, hext]; exact storeLe_refl _
    | true =>
      cases hdl : env.downloadErr b.1 with
      | some msg => simp [processBlob, hslash, hext, hdl]; exact storeLe_refl _
      | none =>
        cases hbk : env.backupErr b.1 with
        | some msg => simp [processBlob, hslash, hext, hdl, hbk]; exact storeLe_refl _
        | none =>
          have h : processBlob env ofold acc b =
              styleFold env ofold (basename b.1) b.2
                (uploadBlob acc.1 (target_name ofold "original" (basename b.1)) b.2,
                  acc.2) PREDEFINED_STYLES := by
            simp [processBlob, hslash, hext, hdl, hbk]
          rw [h]
          exact storeLe_trans (storeLe_upload _ _ _)
            (styleFold_storeLe env ofold (basename b.1) b.2 PREDEFINED_STYLES
              (uploadBlob acc.1 (target_name ofold "original" (basename b.1)) b.2, acc.2))

theorem processBlob_resultsLe (env : Env) (ofold : String)
    (acc : Store × Results) (b : String × String) :
    resultsLe acc.2 (processBlob env ofold acc b).2 := by
  cases hslash : strEndsWith b.1 "/" with
  | true => simp [processBlob, hslash]; exact resultsLe_refl _
  | false =>
    cases hext : allowedExt (basename b.1) with
    | false => simp [processBlob, hslash, hext]; exact resultsLe_refl _
    | true =>
      cases hdl : env.downloadErr b.1 with
      | some msg =>
        refine ⟨⟨[], ?_⟩, ⟨[], ?_⟩, ⟨[(b.1, msg)], ?_⟩⟩ <;>
          simp [processBlob, hslash, hext, hdl]
      | none =>
        cases hbk : env.backupErr b.1 with
        | some msg =>
          refine ⟨⟨[], ?_⟩, ⟨[], ?_⟩, ⟨[(b.1, msg)], ?_⟩⟩ <;>
            simp [processBlob, hslash, hext, hdl, hbk]
        | none =>
          have h : processBlob env ofold acc b =
              styleFold env ofold (basename b.1) b.2
                (uploadBlob acc.1 (target_name ofold "original" (basename b.1)) b.2,
                  acc.2) PREDEFINED_STYLES := by
            simp [processBlob, hslash, hext, hdl, hbk]
          rw [h]
          exact styleFold_resultsLe env ofold (basename b.1) b.2 PREDEFINED_STYLES _

theorem runAux_storeLe (env : Env) (ofold : String) :
    ∀ (blobs : List (String × String)) (acc : Store × Results),
      storeLe acc.1 (runAux env ofold acc blobs).1
  | [], acc => storeLe_refl _
  | b :: rest, acc =>
    storeLe_trans (processBlob_storeLe env ofold acc b)
      (runAux_storeLe env ofold rest (processBlob env ofold acc b))

theorem runAux_resultsLe (env : Env) (ofold : String) :
    ∀ (blobs : List (String × String)) (acc : Store × Results),
      resultsLe acc.2 (runAux env ofold acc blobs).2
  | [], acc => resultsLe_refl _
  | b :: rest, acc =>
    resultsLe_trans (processBlob_resultsLe env ofold acc b)
      (runAux_resultsLe env ofold rest (processBlob env ofold acc b))

/-- Branch equation of `styleStep`: existing target, so skip. -/
theorem styleStep_eq_skip (env : Env) (ofold fn data : String)
    (acc : Store × Results) (s : Style)
    (hex : blobExists acc.1 (target_name ofold s.name fn) = true) :
    styleStep env ofold fn data acc s =
      (acc.1, { acc.2 with skipped := acc.2.skipped ++ [target_name ofold s.name fn] }) := by
  simp [styleStep, hex]

/-- Branch equation of `styleStep`: missing AI configuration. -/
theorem styleStep_eq_cfg (env : Env) (ofold fn data : String)
    (acc : Store × Results) (s : Style)
    (hex : blobExists acc.1 (target_name ofold s.name fn) = false)
    (hcfg : (pyFalsy env.api_key || pyFalsy env.endpoint_url) = true) :
    styleStep env ofold fn data acc s =
      (acc.1, { acc.2 with failed := acc.2.failed ++ [(target_name ofold s.name fn, "API Config Missing")] }) := by
  simp [styleStep, hex, hcfg]

/-- Branch equation of `styleStep`: generation succeeds, target uploaded. -/
theorem styleStep_eq_success (env : Env) (ofold fn data : String)
    (acc : Store × Results) (s : Style) (content : String)
    (hex : blobExists acc.1 (target_name ofold s.name fn) = false)
    (hcfg : (pyFalsy env.api_key || pyFalsy env.endpoint_url) = false)
    (hapi : env.api fn data s.prompt_text = ApiResult.success content) :
    styleStep env ofold fn data acc s =
      (uploadBlob acc.1 (target_name ofold s.name fn) content,
        { acc.2 with api_calls := acc.2.api_calls ++ [(fn, data, s.prompt_text)], processed := acc.2.processed ++ [target_name ofold s.name fn] }) := by
  simp [styleStep, hex, hcfg, hapi]

/-- Branch equation of `styleStep`: non-200 response. -/
theorem styleStep_eq_http (env : Env) (ofold fn data : String)
    (acc : Store × Results) (s : Style) (code : Nat) (body : String)
    (hex : blobExists acc.1 (target_name ofold s.name fn) = false)
    (hcfg : (pyFalsy env.api_key || pyFalsy env.endpoint_url) = false)
    (hapi : env.api fn data s.prompt_text = ApiResult.httpError code body) :
    styleStep env ofold fn data acc s =
      (acc.1, { acc.2 with api_calls := acc.2.api_calls ++ [(fn, data, s.prompt_text)], failed := acc.2.failed ++ [(target_name ofold s.name fn, "API " ++ toString code ++ ": " ++ strTake body 50)] }) := by
  simp [styleStep, hex, hcfg, hapi]

/-- Branch equation of `styleStep`: transport exception. -/
theorem styleStep_eq_transport (env : Env) (ofold fn data : String)
    (acc : Store × Results) (s : Style) (msg : String)
    (hex : blobExists acc.1 (target_name ofold s.name fn) = false)
    (hcfg : (pyFalsy env.api_key || pyFalsy env.endpoint_url) = false)
    (hapi : env.api fn data s.prompt_text = ApiResult.transportError msg) :
    styleStep env ofold fn data acc s =
      (acc.1, { acc.2 with api_calls := acc.2.api_calls ++ [(fn, data, s.prompt_text)], failed := acc.2.failed ++ [(target_name ofold s.name fn, msg)] }) := by
  simp [styleStep, hex, hcfg, hapi]

/-- Invariant tying results to the store: every `processed` path is
present in the store. -/
def procInv (acc : Store × Results) : Prop :=
  ∀ t ∈ acc.2.processed, blobExists acc.1 t = true

theorem styleStep_procInv (env : Env) (ofold fn data : String)
    (acc : Store × Results) (s : Style) (h : procInv acc) :
    procInv (styleStep env ofold fn data acc s) := by
  cases hex : blobExists acc.1 (target_name ofold s.name fn) with
  | true =>
    rw [styleStep_eq_skip env ofold fn data acc s hex]
    intro t ht
    exact h t ht
  | false =>
    cases hcfg : (pyFalsy env.api_key || pyFalsy env.endpoint_url) with
    | true =>
      rw [styleStep_eq_cfg env ofold fn data acc s hex hcfg]
      intro t ht
      exact h t ht
    | false =>
      cases hapi : env.api fn data s.prompt_text with
      | success content =>
        rw [styleStep_eq_success env ofold fn data acc s content hex hcfg hapi]
        intro t ht
        rcases List.mem_append.mp ht with h1 | h1
        · exact storeLe_upload _ _ _ t (h t h1)
        · have h2 : t = target_name ofold s.name fn := by simpa using h1
          rw [h2, blobExists_cons]
          simp
      | httpError code body =>
        rw [styleStep_eq_http env ofold fn data acc s code body hex hcfg hapi]
        intro t ht
        exact h t ht
      | transportError msg =>
        rw [styleStep_eq_transport env ofold fn data acc s msg hex hcfg hapi]
        intro t ht
        exact h t ht

theorem styleFold_procInv (env : Env) (ofold fn data : String) :
    ∀ (styles : List Style) (acc : Store × Results), procInv acc →
      procInv (styleFold env ofold fn data acc styles)
  | [], _, h => h
  | s :: rest, acc, h =>
    styleFold_procInv env ofold fn data rest (styleStep env ofold fn data acc s)
      (styleStep_procInv env ofold fn data acc s h)

theorem processBlob_procInv (env : Env) (ofold : String)
    (acc : Store × Results) (b : String × String) (h : procInv acc) :
    procInv (processBlob env ofold acc b) := by
  cases hslash : strEndsWith b.1 "/" with
  | true => rw [show processBlob env ofold acc b = acc from by simp [processBlob, hslash]]; exact h
  | false =>
    cases hext : allowedExt (basename b.1) with
    | false =>
      rw [show processBlob env ofold acc b = acc from by simp [processBlob, hslash, hext]]
      exact h
    | true =>
      cases hdl : env.downloadErr b.1 with
      | some msg =>
        rw [show processBlob env ofold acc b =
            (acc.1, { acc.2 with failed := acc.2.failed ++ [(b.1, msg)] }) from by
          simp [processBlob, hslash, hext, hdl]]
        intro t ht
        exact h t ht
      | none =>
        cases hbk : env.backupErr b.1 with
        | some msg =>
          rw [show processBlob env ofold acc b =
              (acc.1, { acc.2 with failed := acc.2.failed ++ [(b.1, msg)] }) from by
            simp [processBlob, hslash, hext, hdl, hbk]]
          intro t ht
          exact h t ht
        | none =>
          rw [show processBlob env ofold acc b =
              styleFold env ofold (basename b.1) b.2
                (uploadBlob acc.1 (target_name ofold "original" (basename b.1)) b.2, acc.2)
                PREDEFINED_STYLES from by simp [processBlob, hslash, hext, hdl, hbk]]
          refine styleFold_procInv env ofold (basename b.1) b.2 PREDEFINED_STYLES _ ?_
          intro t ht
          exact storeLe_upload _ _ _ t (h t ht)

theorem runAux_procInv (env : Env) (ofold : String) :
    ∀ (blobs : List (String × String)) (acc : Store × Results), procInv acc →
      procInv (runAux env ofold acc blobs)
  | [], _, h => h
  | b :: rest, acc, h =>
    runAux_procInv env ofold rest (processBlob env ofold acc b)
      (processBlob_procInv env ofold acc b h)

/-- A style whose target exists when its loop iteration starts is reported
in `skipped` by the loop. -/
theorem styleFold_skip (env : Env) (ofold fn data : String) :
    ∀ (styles : List Style) (acc : Store × Results) (s : Style), s ∈ styles →
      blobExists acc.1 (target_name ofold s.name fn) = true →
      target_name ofold s.name fn ∈ (styleFold env ofold fn data acc styles).2.skipped := by
  intro styles
  induction styles with
  | nil => intro acc s hmem _; exact absurd hmem (List.not_mem_nil s)
  | cons s' rest ih =>
    intro acc s hmem hex
    rcases List.mem_cons.mp hmem with heq | hmem'
    · subst heq
      have h2 : target_name ofold s.name fn ∈
          (styleStep env ofold fn data acc s).2.skipped := by
        rw [styleStep_eq_skip env ofold fn data acc s hex]
        simp
      exact resultsLe_mem_skipped
        (styleFold_resultsLe env ofold fn data rest (styleStep env ofold fn data acc s)) h2
    · exact ih (styleStep env ofold fn data acc s') s hmem'
        (styleStep_storeLe env ofold fn data acc s' _ hex)

/-- Same, lifted to one source object whose filters, download and backup
all pass. -/
theorem processBlob_skip (env : Env) (ofold : String)
    (acc : Store × Results) (b : String × String) (s : Style)
    (hmem : s ∈ PREDEFINED_STYLES)
    (h1 : strEndsWith b.1 "/" = false) (h2 : allowedExt (basename b.1) = true)
    (h3 : env.downloadErr b.1 = none) (h4 : env.backupErr b.1 = none)
    (hex : blobExists acc.1 (target_name ofold s.name (basename b.1)) = true) :
    target_name ofold s.name (basename b.1) ∈ (processBlob env ofold acc b).2.skipped := by
  rw [show processBlob env ofold acc b =
      styleFold env ofold (basename b.1) b.2
        (uploadBlob acc.1 (target_name ofold "original" (basename b.1)) b.2, acc.2)
        PREDEFINED_STYLES from by simp [processBlob, h1, h2, h3, h4]]
  exact styleFold_skip env ofold (basename b.1) b.2 PREDEFINED_STYLES _ s hmem
    (storeLe_upload _ _ _ _ hex)

/-- Same, lifted to the whole run. -/
theorem runAux_skip (env : Env) (ofold : String) :
    ∀ (blobs : List (String × String)) (acc : Store × Results)
      (b : String × String) (s : Style), b ∈ blobs → s ∈ PREDEFINED_STYLES →
      strEndsWith b.1 "/" = false → allowedExt (basename b.1) = true →
      env.downloadErr b.1 = none → env.backupErr b.1 = none →
      blobExists acc.1 (target_name ofold s.name (basename b.1)) = true →
      target_name ofold s.name (basename b.1) ∈ (runAux env ofold acc blobs).2.skipped := by
  intro blobs
  induction blobs with
  | nil => intro acc b s hb; exact absurd hb (List.not_mem_nil b)
  | cons b' rest ih =>
    intro acc b s hb hs h1 h2 h3 h4 hex
    rcases List.mem_cons.mp hb with heq | hb'
    · subst heq
      exact resultsLe_mem_skipped
        (runAux_resultsLe env ofold rest (processBlob env ofold acc b))
        (processBlob_skip env ofold acc b s hs h1 h2 h3 h4 hex)
    · exact ih (processBlob env ofold acc b') b s hb' hs h1 h2 h3 h4
        (processBlob_storeLe env ofold acc b' _ hex)

/-- Provenance of a `processed` entry through one style step. -/
theorem styleStep_processed_src (env : Env) (ofold fn data : String)
    (acc : Store × Results) (s : Style) (t : String)
    (ht : t ∈ (styleStep env ofold fn data acc s).2.processed) :
    t ∈ acc.2.processed ∨ t = target_name ofold s.name fn := by
  cases hex : blobExists acc.1 (target_name ofold s.name fn) with
  | true =>
    rw [styleStep_eq_skip env ofold fn data acc s hex] at ht
    exact Or.inl ht
  | false =>
    cases hcfg : (pyFalsy env.api_key || pyFalsy env.endpoint_url) with
    | true =>
      rw [styleStep_eq_cfg env ofold fn data acc s hex hcfg] at ht
      exact Or.inl ht
    | false =>
      cases hapi : env.api fn data s.prompt_text with
      | success content =>
        rw [styleStep_eq_success env ofold fn data acc s content hex hcfg hapi] at ht
        rcases List.mem_append.mp ht with h1 | h1
        · exact Or.inl h1
        · exact Or.inr (by simpa using h1)
      | httpError code body =>
        rw [styleStep_eq_http env ofold fn data acc s code body hex hcfg hapi] at ht
        exact Or.inl ht
      | transportError msg =>
        rw [styleStep_eq_transport env ofold fn data acc s msg hex hcfg hapi] at ht
        exact Or.inl ht

/-- Provenance of a `processed` entry through the style loop. -/
theorem styleFold_processed_src (env : Env) (ofold fn data : String) :
    ∀ (styles : List Style) (acc : Store × Results) (t : String),
      t ∈ (styleFold env ofold fn data acc styles).2.processed →
      t ∈ acc.2.processed ∨ ∃ s ∈ styles, t = target_name ofold s.name fn := by
  intro styles
  induction styles with
  | nil => intro acc t ht; exact Or.inl ht
  | cons s rest ih =>
    intro acc t ht
    rcases ih (styleStep env ofold fn data acc s) t ht with h | ⟨s', hs', he⟩
    · rcases styleStep_processed_src env ofold fn data acc s t h with h1 | h1
      · exact Or.inl h1
      · exact Or.inr ⟨s, List.mem_cons_self s rest, h1⟩
    · exact Or.inr ⟨s', List.mem_cons_of_mem _ hs', he⟩

/-- Provenance of a `processed` entry through one source object: every new
entry is a style target of an object that passed filters, download and
backup. -/
theorem processBlob_processed_src (env : Env) (ofold : String)
    (acc : Store × Results) (b : String × String) (t : String)
    (ht : t ∈ (processBlob env ofold acc b).2.processed) :
    t ∈ acc.2.processed ∨
    (strEndsWith b.1 "/" = false ∧ allowedExt (basename b.1) = true ∧
      env.downloadErr b.1 = none ∧ env.backupErr b.1 = none ∧
      ∃ s ∈ PREDEFINED_STYLES, t = target_name ofold s.name (basename b.1)) := by
  cases hslash : strEndsWith b.1 "/" with
  | true =>
    rw [show processBlob env ofold acc b = acc from by simp [processBlob, hslash]] at ht
    exact Or.inl ht
  | false =>
    cases hext : allowedExt (basename b.1) with
    | false =>
      rw [show processBlob env ofold acc b = acc from by
        simp [processBlob, hslash, hext]] at ht
      exact Or.inl ht
    | true =>
      cases hdl : env.downloadErr b.1 with
      | some msg =>
        rw [show processBlob env ofold acc b =
            (acc.1, { acc.2 with failed := acc.2.failed ++ [(b.1, msg)] }) from by
          simp [processBlob, hslash, hext, hdl]] at ht
        exact Or.inl ht
      | none =>
        cases hbk : env.backupErr b.1 with
        | some msg =>
          rw [show processBlob env ofold acc b =
              (acc.1, { acc.2 with failed := acc.2.failed ++ [(b.1, msg)] }) from by
            simp [processBlob, hslash, hext, hdl, hbk]] at ht
          exact Or.inl ht
        | none =>
          rw [show processBlob env ofold acc b =
              styleFold env ofold (basename b.1) b.2
                (uploadBlob acc.1 (target_name ofold "original" (basename b.1)) b.2, acc.2)
                PREDEFINED_STYLES from by simp [processBlob, hslash, hext, hdl, hbk]] at ht
          rcases styleFold_processed_src env ofold (basename b.1) b.2
            PREDEFINED_STYLES _ t ht with h | ⟨s, hs, he⟩
          · exact Or.inl h
          · exact Or.inr ⟨rfl, rfl, rfl, rfl, s, hs, he⟩

/-- Provenance of a `processed` entry through the whole run. -/
theorem runAux_processed_src (env : Env) (ofold : String) :
    ∀ (blobs : List (String × String)) (acc : Store × Results) (t : String),
      t ∈ (runAux env ofold acc blobs).2.processed →
      t ∈ acc.2.processed ∨
      ∃ b ∈ blobs, strEndsWith b.1 "/" = false ∧ allowedExt (basename b.1) = true ∧
        env.downloadErr b.1 = none ∧ env.backupErr b.1 = none ∧
        ∃ s ∈ PREDEFINED_STYLES, t = target_name ofold s.name (basename b.1) := by
  intro blobs
  induction blobs with
  | nil => intro acc t ht; exact Or.inl ht
  | cons b rest ih =>
    intro acc t ht
    rcases ih (processBlob env ofold acc b) t ht with h | ⟨b', hb', hrest⟩
    · rcases processBlob_processed_src env ofold acc b t h with h1 | h1
      · exact Or.inl h1
      · exact Or.inr ⟨b, List.mem_cons_self b rest, h1⟩
    · exact Or.inr ⟨b', List.mem_cons_of_mem _ hb', hrest⟩

/-- "If the generation service would succeed for this style, its target is
already in the store" — the key invariant behind second-run idempotence. -/
def styleOk (env : Env) (ofold fn data : String) (st : Store) (s : Style) : Prop :=
  pyFalsy env.api_key = false → pyFalsy env.endpoint_url = false →
  ∀ content, env.api fn data s.prompt_text = ApiResult.success content →
    blobExists st (target_name ofold s.name fn) = true

theorem styleOk_mono {env : Env} {ofold fn data : String} {st st' : Store}
    {s : Style} (hle : storeLe st st') (h : styleOk env ofold fn data st s) :
    styleOk env ofold fn data st' s :=
  fun hk he content hc => hle _ (h hk he content hc)

/-- Under the `styleOk` invariant the style loop produces no new
`processed` entry. -/
theorem styleFold_no_processed (env : Env) (ofold fn data : String) :
    ∀ (styles : List Style) (acc : Store × Results),
      (∀ s ∈ styles, styleOk env ofold fn data acc.1 s) →
      (styleFold env ofold fn data acc styles).2.processed = acc.2.processed := by
  intro styles
  induction styles with
  | nil => intro acc _; rfl
  | cons s rest ih =>
    intro acc hok
    have hhead := hok s (List.mem_cons_self s rest)
    have hrest : ∀ s' ∈ rest, styleOk env ofold fn data acc.1 s' :=
      fun s' hs' => hok s' (List.mem_cons_of_mem _ hs')
    cases hex : blobExists acc.1 (target_name ofold s.name fn) with
    | true =>
      have heq := styleStep_eq_skip env ofold fn data acc s hex
      calc (styleFold env ofold fn data (styleStep env ofold fn data acc s) rest).2.processed
          = (styleStep env ofold fn data acc s).2.processed := by
            refine ih _ ?_
            rw [heq]
            exact hrest
        _ = acc.2.processed := by rw [heq]
    | false =>
      cases hcfg : (pyFalsy env.api_key || pyFalsy env.endpoint_url) with
      | true =>
        have heq := styleStep_eq_cfg env ofold fn data acc s hex hcfg
        calc (styleFold env ofold fn data (styleStep env ofold fn data acc s) rest).2.processed
            = (styleStep env ofold fn data acc s).2.processed := by
              refine ih _ ?_
              rw [heq]
              exact hrest
          _ = acc.2.processed := by rw [heq]
      | false =>
        have hk : pyFalsy env.api_key = false := (Bool.or_eq_false_iff.mp hcfg).1
        have he : pyFalsy env.endpoint_url = false := (Bool.or_eq_false_iff.mp hcfg).2
        cases hapi : env.api fn data s.prompt_text with
        | success content =>
          exact absurd (hhead hk he content hapi) (by simp [hex])
        | httpError code body =>
          have heq := styleStep_eq_http env ofold fn data acc s code body hex hcfg hapi
          calc (styleFold env ofold fn data (styleStep env ofold fn data acc s) rest).2.processed
              = (styleStep env ofold fn data acc s).2.processed := by
                refine ih _ ?_
                rw [heq]
                exact hrest
            _ = acc.2.processed := by rw [heq]
        | transportError msg =>
          have heq := styleStep_eq_transport env ofold fn data acc s msg hex hcfg hapi
          calc (styleFold env ofold fn data (styleStep env ofold fn data acc s) rest).2.processed
              = (styleStep env ofold fn data acc s).2.processed := by
                refine ih _ ?_
                rw [heq]
                exact hrest
            _ = acc.2.processed := by rw [heq]

/-- Same, lifted to one source object. -/
theorem processBlob_no_processed (env : Env) (ofold : String)
    (acc : Store × Results) (b : String × String)
    (hok : strEndsWith b.1 "/" = false → allowedExt (basename b.1) = true →
      env.downloadErr b.1 = none → env.backupErr b.1 = none →
      ∀ s ∈ PREDEFINED_STYLES, styleOk env ofold (basename b.1) b.2 acc.1 s) :
    (processBlob env ofold acc b).2.processed = acc.2.processed := by
  cases hslash : strEndsWith b.1 "/" with
  | true => rw [show processBlob env ofold acc b = acc from by simp [processBlob, hslash]]
  | false =>
    cases hext : allowedExt (basename b.1) with
    | false =>
      rw [show processBlob env ofold acc b = acc from by simp [processBlob, hslash, hext]]
    | true =>
      cases hdl : env.downloadErr b.1 with
      | some msg =>
        rw [show processBlob env ofold acc b =
            (acc.1, { acc.2 with failed := acc.2.failed ++ [(b.1, msg)] }) from by
          simp [processBlob, hslash, hext, hdl]]
      | none =>
        cases hbk : env.backupErr b.1 with
        | some msg =>
          rw [show processBlob env ofold acc b =
              (acc.1, { acc.2 with failed := acc.2.failed ++ [(b.1, msg)] }) from by
            simp [processBlob, hslash, hext, hdl, hbk]]
        | none =>
          rw [show processBlob env ofold acc b =
              styleFold env ofold (basename b.1) b.2
                (uploadBlob acc.1 (target_name ofold "original" (basename b.1)) b.2, acc.2)
                PREDEFINED_STYLES from by simp [processBlob, hslash, hext, hdl, hbk]]
          exact styleFold_no_processed env ofold (basename b.1) b.2 PREDEFINED_STYLES _
            (fun s hs => styleOk_mono (storeLe_upload _ _ _)
              (hok hslash hext hdl hbk s hs))

/-- The second-run invariant over a whole listing. -/
def runQ (env : Env) (ofold : String) (blobs : List (String × String))
    (st : Store) : Prop :=
  ∀ b ∈ blobs, strEndsWith b.1 "/" = false → allowedExt (basename b.1) = true →
    env.downloadErr b.1 = none → env.backupErr b.1 = none →
    ∀ s ∈ PREDEFINED_STYLES, styleOk env ofold (basename b.1) b.2 st s

/-- Under `runQ` the whole run produces no new `processed` entry. -/
theorem runAux_no_processed (env : Env) (ofold : String) :
    ∀ (blobs : List (String × String)) (acc : Store × Results),
      runQ env ofold blobs acc.1 →
      (runAux env ofold acc blobs).2.processed = acc.2.processed := by
  intro blobs
  induction blobs with
  | nil => intro acc _; rfl
  | cons b rest ih =>
    intro acc hQ
    have h1 : (processBlob env ofold acc b).2.processed = acc.2.processed :=
      processBlob_no_processed env ofold acc b
        (fun c1 c2 c3 c4 s hs => hQ b (List.mem_cons_self b rest) c1 c2 c3 c4 s hs)
    have hQ' : runQ env ofold rest (processBlob env ofold acc b).1 :=
      fun b' hb' c1 c2 c3 c4 s hs =>
        styleOk_mono (processBlob_storeLe env ofold acc b)
          (hQ b' (List.mem_cons_of_mem _ hb') c1 c2 c3 c4 s hs)
    calc (runAux env ofold (processBlob env ofold acc b) rest).2.processed
        = (processBlob env ofold acc b).2.processed := ih _ hQ'
      _ = acc.2.processed := h1

/-- After the style loop, a style whose generation call succeeds has its
target in the store (either it already existed, or it was just written). -/
theorem styleFold_establishes (env : Env) (ofold fn data : String)
    (hk : pyFalsy env.api_key = false) (he : pyFalsy env.endpoint_url = false) :
    ∀ (styles : List Style) (acc : Store × Results) (s : Style) (content : String),
      s ∈ styles → env.api fn data s.prompt_text = ApiResult.success content →
      blobExists (styleFold env ofold fn data acc styles).1
        (target_name ofold s.name fn) = true := by
  intro styles
  induction styles with
  | nil => intro acc s content hmem; exact absurd hmem (List.not_mem_nil s)
  | cons s' rest ih =>
    intro acc s content hmem hapi
    rcases List.mem_cons.mp hmem with heq | hmem'
    · subst heq
      cases hex : blobExists acc.1 (target_name ofold s.name fn) with
      | true =>
        have h2 : blobExists (styleStep env ofold fn data acc s).1
            (target_name ofold s.name fn) = true := by
          rw [styleStep_eq_skip env ofold fn data acc s hex]
          exact hex
        exact styleFold_storeLe env ofold fn data rest
          (styleStep env ofold fn data acc s) _ h2
      | false =>
        have hcfg : (pyFalsy env.api_key || pyFalsy env.endpoint_url) = false := by
          rw [hk, he]; rfl
        have h2 : blobExists (styleStep env ofold fn data acc s).1
            (target_name ofold s.name fn) = true := by
          rw [styleStep_eq_success env ofold fn data acc s content hex hcfg hapi,
            blobExists_cons]
          simp
        exact styleFold_storeLe env ofold fn data rest
          (styleStep env ofold fn data acc s) _ h2
    · exact ih (styleStep env ofold fn data acc s') s content hmem' hapi

/-- Same, lifted to one source object. -/
theorem processBlob_establishes (env : Env) (ofold : String)
    (acc : Store × Results) (b : String × String) (s : Style) (content : String)
    (hmem : s ∈ PREDEFINED_STYLES)
    (h1 : strEndsWith b.1 "/" = false) (h2 : allowedExt (basename b.1) = true)
    (h3 : env.downloadErr b.1 = none) (h4 : env.backupErr b.1 = none)
    (hk : pyFalsy env.api_key = false) (he : pyFalsy env.endpoint_url = false)
    (hapi : env.api (basename b.1) b.2 s.prompt_text = ApiResult.success content) :
    blobExists (processBlob env ofold acc b).1
      (target_name ofold s.name (basename b.1)) = true := by
  rw [show processBlob env ofold acc b =
      styleFold env ofold (basename b.1) b.2
        (uploadBlob acc.1 (target_name ofold "original" (basename b.1)) b.2, acc.2)
        PREDEFINED_STYLES from by simp [processBlob, h1, h2, h3, h4]]
  exact styleFold_establishes env ofold (basename b.1) b.2 hk he
    PREDEFINED_STYLES _ s content hmem hapi

/-- Same, lifted to the whole run. -/
theorem runAux_establishes (env : Env) (ofold : String) :
    ∀ (blobs : List (String × String)) (acc : Store × Results)
      (b : String × String) (s : Style) (content : String), b ∈ blobs →
      s ∈ PREDEFINED_STYLES →
      strEndsWith b.1 "/" = false → allowedExt (basename b.1) = true →
      env.downloadErr b.1 = none → env.backupErr b.1 = none →
      pyFalsy env.api_key = false → pyFalsy env.endpoint_url = false →
      env.api (basename b.1) b.2 s.prompt_text = ApiResult.success content →
      blobExists (runAux env ofold acc blobs).1
        (target_name ofold s.name (basename b.1)) = true := by
  intro blobs
  induction blobs with
  | nil => intro acc b s content hb; exact absurd hb (List.not_mem_nil b)
  | cons b' rest ih =>
    intro acc b s content hb hs h1 h2 h3 h4 hk he hapi
    rcases List.mem_cons.mp hb with heq | hb'
    · subst heq
      exact runAux_storeLe env ofold rest (processBlob env ofold acc b) _
        (processBlob_establishes env ofold acc b s content hs h1 h2 h3 h4 hk he hapi)
    · exact ih (processBlob env ofold acc b') b s content hb' hs h1 h2 h3 h4 hk he hapi

/-- C6: (i) a style pair whose target already exists appends the target to
`skipped`, does not invoke the generator, and leaves the whole store — in
particular the object at the target — unchanged; (ii) hence a second run
over the same sources and the first run's final store reports every
previously `processed` target as `skipped` and produces an empty
`processed` list. -/
theorem C6_theorem :
    (∀ (env : Env) (ofold fn data : String) (st : Store) (r : Results) (s : Style),
      blobExists st (target_name ofold s.name fn) = true →
      styleStep env ofold fn data (st, r) s =
        (st, { r with skipped := r.skipped ++ [target_name ofold s.name fn] })) ∧
    (∀ (env : Env) (ofold : String) (blobs : List (String × String)) (store : Store),
      (style_images_run env ofold blobs
        (style_images_run env ofold blobs store).1).2.processed = [] ∧
      ∀ t ∈ (style_images_run env ofold blobs store).2.processed,
        t ∈ (style_images_run env ofold blobs
          (style_images_run env ofold blobs store).1).2.skipped) := by
  constructor
  · intro env ofold fn data st r s hex
    exact styleStep_eq_skip env ofold fn data (st, r) s hex
  · intro env ofold blobs store
    constructor
    · have hQ : runQ env ofold blobs (style_images_run env ofold blobs store).1 := by
        intro b hb c1 c2 c3 c4 s hs hk he content hapi
        exact runAux_establishes env ofold blobs (store, Results.empty) b s content
          hb hs c1 c2 c3 c4 hk he hapi
      exact runAux_no_processed env ofold blobs
        ((style_images_run env ofold blobs store).1, Results.empty) hQ
    · intro t ht
      rcases runAux_processed_src env ofold blobs (store, Results.empty) t ht with
        h | ⟨b, hb, c1, c2, c3, c4, s, hs, rfl⟩
      · exact absurd h (List.not_mem_nil t)
      · have hinv : procInv (style_images_run env ofold blobs store) :=
          runAux_procInv env ofold blobs (store, Results.empty)
            (fun t' ht' => absurd ht' (List.not_mem_nil t'))
        exact runAux_skip env ofold blobs
          ((style_images_run env ofold blobs store).1, Results.empty) b s hb hs
          c1 c2 c3 c4 (hinv _ ht)

/-- C6 witness: a pair whose target already holds an object is skipped, the
store (and the object at the target) is unchanged, and no generator call is
recorded. -/
theorem C6_witness :
    styleStep envOk "output" "a.png" "D"
        ([(target_name "output" "watercolor" "a.png", "X")], Results.empty)
        ⟨"watercolor", "Transform into a beautiful watercolor painting"⟩ =
      ([(target_name "output" "watercolor" "a.png", "X")],
        { Results.empty with
          skipped := Results.empty.skipped ++ [target_name "output" "watercolor" "a.png"] }) :=
  C6_theorem.1 envOk "output" "a.png" "D"
    [(target_name "output" "watercolor" "a.png", "X")] Results.empty
    ⟨"watercolor", "Transform into a beautiful watercolor painting"⟩ (by decide)
